import Mathlib

/-!
# Verification of the nodeEventStore core

Shallow embedding of `lib/eventStore.js` (Store coordinator, EventStream, Event,
Snapshot) and `lib/storage/inMemory/storage.js` (the in-memory Storage backend),
with theorems settling the frozen claims about the commit protocol, revision
assignment, snapshot loading and the storage contract.

Conventions of the embedding:
* JS `null`/`undefined` field values are modelled as `Option.none`; JS numeric
  coercion of `null` (`ToNumber(null) = 0`) is modelled by `jsNum`.
* JS objects used as string-keyed maps (`this.store`, `this.snapshots`) are
  modelled as insertion-ordered association lists with unique keys; property
  access with a `null` key uses the string key `"null"` (`jsKey`).
* `new Date()` is modelled as reading an external millisecond clock, indexed by
  the order of the `Date` calls inside the operation (`clock : Nat → Int`).
* `uuid()` / `Storage.getId` is modelled by passing the fresh id as an argument.
* Node-style callbacks: a synchronous callback result is the return value; an
  operation that can terminate without ever invoking its callback returns an
  `Option`, with `none` meaning "the callback is never called".
* Payloads are opaque domain objects (always truthy in JS); they are modelled by
  an abstract carrier type.
-/

namespace NodeEventStore

/-- Opaque domain payload (`payload` / snapshot `data`). The source never
inspects it; payloads are JS objects, hence truthy. -/
abbrev Payload := String

/-- Backend error values surfaced through callbacks. -/
abbrev Err := String

/-- JS `ToNumber` on a nullable integer: `null` coerces to `0`. -/
def jsNum : Option Int → Int
  | none => 0
  | some r => r

/-- JS property keys are strings; `obj[null]` accesses the key `"null"`. -/
def jsKey : Option String → String
  | none => "null"
  | some s => s

/-- JS `s || null` on a string: the empty string is falsy and collapses to
`null`. -/
def jsOrNull (s : String) : Option String :=
  if s = "" then none else some s

/-- The persisted event record (`Event` in `lib/eventStore.js`, lines 434-443).
Identity fields start life as `null` and are sealed at commit. -/
structure Event where
  streamId : Option String
  streamRevision : Option Int
  commitId : Option String
  commitSequence : Option Int
  commitStamp : Option Int
  header : Option String
  dispatched : Bool
  payload : Option Payload
deriving DecidableEq

/-- The `Event` constructor: `new Event(streamId, event)`. All identity fields
are `null`, `dispatched` is `false`, the payload is stored verbatim (payloads
are opaque objects, hence truthy, so `event || null` keeps them). -/
def Event.mkNew (streamId : String) (event : Payload) : Event :=
  { streamId := jsOrNull streamId
  , streamRevision := none
  , commitId := none
  , commitSequence := none
  , commitStamp := none
  , header := none
  , dispatched := false
  , payload := some event }

/-- The persisted snapshot record (`Snapshot` in `lib/eventStore.js`). -/
structure Snapshot where
  id : Option String
  streamId : String
  revision : Int
  data : Payload
deriving DecidableEq

/-- First-match lookup in a JS-object-as-map (`obj[k]`, `undefined ↦ none`). -/
def lookupKey {α : Type} : List (String × α) → String → Option α
  | [], _ => none
  | (k', v) :: rest, k => if k' = k then some v else lookupKey rest k

/-- JS property assignment `obj[k] = v`: overwrite the entry in place if the
key exists (JS object keys are unique), otherwise append the new key in
insertion order. -/
def setKey {α : Type} : List (String × α) → String → α → List (String × α)
  | [], k, v => [(k, v)]
  | (k', v') :: rest, k, v =>
    if k' = k then (k, v) :: rest else (k', v') :: setKey rest k v

/-- The in-memory storage state: `this.store` (streamId → event log) and
`this.snapshots` (streamId → snapshot list), both insertion-ordered. -/
structure Storage where
  store : List (String × List Event)
  snapshots : List (String × List Snapshot)
deriving DecidableEq

/-- `Storage.prototype.addEvents(events, callback)`: a missing (`none`) or
empty batch calls back success without touching the store; otherwise the whole
batch is concatenated onto the log of the stream named by `events[0].streamId`
(creating it if absent). Always calls back `null` (success). -/
def Storage.addEvents (st : Storage) (events : Option (List Event)) :
    Storage × Option Err :=
  match events with
  | none => (st, none)
  | some [] => (st, none)
  | some (e0 :: rest) =>
    let key := jsKey e0.streamId
    let old := (lookupKey st.store key).getD []
    ({ st with store := setKey st.store key (old ++ (e0 :: rest)) }, none)

/-- `Storage.prototype.addSnapshot(snapshot, callback)`: push onto the
per-stream snapshot list. Always succeeds. -/
def Storage.addSnapshot (st : Storage) (snapshot : Snapshot) :
    Storage × Option Err :=
  let old := (lookupKey st.snapshots snapshot.streamId).getD []
  ({ st with snapshots := setKey st.snapshots snapshot.streamId (old ++ [snapshot]) }, none)

/-- JS `Array.prototype.slice` index resolution: negative indexes count from
the end, and everything is clamped to `[0, len]`. -/
def jsSliceIdx (len : Nat) (i : Int) : Nat :=
  if i < 0 then ((len : Int) + i).toNat else min i.toNat len

/-- JS `arr.slice(b, e)`. -/
def jsSlice {α : Type} (xs : List α) (b e : Int) : List α :=
  ((xs.take (jsSliceIdx xs.length e)).drop (jsSliceIdx xs.length b))

/-- JS `arr.slice(b)` (one-argument form: up to the end). -/
def jsSliceFrom {α : Type} (xs : List α) (b : Int) : List α :=
  xs.drop (jsSliceIdx xs.length b)

/-- `Storage.prototype.getEvents(streamId, minRev, maxRev, callback)`: an
unknown stream yields `[]`; `maxRev === -1` yields `slice(minRev)`; otherwise
`slice(minRev, maxRev)` — positional, zero-based, `maxRev` exclusive. -/
def Storage.getEvents (st : Storage) (streamId : String) (minRev maxRev : Int) :
    List Event :=
  match lookupKey st.store streamId with
  | none => []
  | some evs =>
    if maxRev = -1 then jsSliceFrom evs minRev else jsSlice evs minRev maxRev

/-- Result of `Storage.prototype.getSnapshot`: either a stored snapshot or the
`{}` empty marker (whose `revision` is `undefined`). -/
inductive SnapResult where
  | found (s : Snapshot)
  | empty
deriving DecidableEq

/-- `Storage.prototype.getSnapshot(streamId, maxRev, callback)`. An unknown
stream calls back the `{}` marker. With `maxRev == -1` the newest snapshot is
returned. Otherwise the list is scanned from its end for the first snapshot
with `revision <= maxRev`; if the scan finds none, the function falls through
WITHOUT ever invoking the callback — that outcome is `none`. -/
def Storage.getSnapshot (st : Storage) (streamId : String) (maxRev : Int) :
    Option SnapResult :=
  match lookupKey st.snapshots streamId with
  | none => some SnapResult.empty
  | some snaps =>
    if maxRev = -1 then
      -- snapshot lists are only ever created non-empty; `getLast?` mirrors
      -- `snaps[snaps.length - 1]`
      match snaps.getLast? with
      | some s => some (SnapResult.found s)
      | none => some SnapResult.empty
    else
      match snaps.reverse.find? (fun s => s.revision ≤ maxRev) with
      | some s => some (SnapResult.found s)
      | none => none

/-- `Storage.prototype.getUndispatchedEvents(callback)`: scan every stream in
key insertion order and collect, in log order, the events whose `dispatched`
flag is (strictly) `false`. -/
def Storage.getUndispatchedEvents (st : Storage) : List Event :=
  st.store.foldl (fun acc p => acc ++ p.2.filter (fun e => e.dispatched == false)) []

/-- Flip the `dispatched` flag of the event at position `i` of a log. The
source mutates the event object in place (`evt.dispatched = true`); the
embedding identifies the shared object by its location in the store. -/
def setDispatchedAt (l : List Event) (i : Nat) : List Event :=
  l.take i ++
    (match l[i]? with
     | some e => ({ e with dispatched := true } : Event) :: l.drop (i + 1)
     | none => l.drop (i + 1))

/-- `Storage.prototype.setEventToDispatched(evt)`: the event object referenced
from stream `sid` at position `i` gets `dispatched = true`. -/
def Storage.setEventToDispatched (st : Storage) (sid : String) (i : Nat) :
    Storage :=
  { st with
    store := st.store.map (fun p => if p.1 = sid then (p.1, setDispatchedAt p.2 i) else p) }

/-- The `EventStream` working set (`lib/eventStore.js` lines 389-395). The
`store` back-reference only serves `EventStream.prototype.commit`'s delegation
and is passed explicitly instead. -/
structure EventStream where
  streamId : String
  events : List Event
  uncommittedEvents : List Event
  lastRevision : Int
deriving DecidableEq

/-- `EventStream.prototype.currentRevision()`: fold over the committed events,
keeping the raw `streamRevision` value whenever its numeric coercion beats the
accumulator's. Starts from `lastRevision` (always `-1`); the result can be the
raw `null` of an unsealed event, hence `Option Int`. -/
def EventStream.currentRevision (s : EventStream) : Option Int :=
  s.events.foldl
    (fun rev e => if jsNum e.streamRevision > jsNum rev then e.streamRevision else rev)
    (some s.lastRevision)

/-- `EventStream.prototype.addEvent(event)`: wrap the payload in a fresh
`Event` and push it onto `uncommittedEvents`. -/
def EventStream.addEvent (s : EventStream) (event : Payload) : EventStream :=
  { s with uncommittedEvents := s.uncommittedEvents ++ [Event.mkNew s.streamId event] }

/-- Modelled from the spec: the dispatcher module (`lib/eventDispatcher.js`)
is not under `src/`; §4.4 of the spec specifies its enqueue entry point
`addUndispatchedEvents(batch)` as appending the batch, in order, to the
dispatcher's in-memory FIFO queue. -/
def addUndispatchedEvents (queue batch : List Event) : List Event :=
  queue ++ batch

/-- The `commitEvents` loop of `Store.prototype.commit` (lines 291-303): event
`i` of the batch receives the shared fresh `commitId`, `commitSequence = i`,
`commitStamp = new Date()` read at iteration `i`, and
`streamRevision = startRev + 1 + i` (`currentRevision++` precedes each
assignment). `dispatched` and `payload` are not touched. -/
def sealEvents (id : String) (clock : Nat → Int) (startRev : Int) :
    Nat → List Event → List Event
  | _, [] => []
  | i, e :: rest =>
    { e with
      commitId := some id
      commitSequence := some (i : Int)
      commitStamp := some (clock i)
      streamRevision := some (startRev + 1 + (i : Int)) } ::
      sealEvents id clock startRev (i + 1) rest

/-- A commit callback invocation: the waterfall's final handler calls the user
callback either with the storage error or with `(null, eventstream)`. -/
inductive COut where
  | err (e : Err)
  | ok (s : EventStream)
deriving DecidableEq

/-- The coordinator state: the bound (in-memory) storage plus the dispatcher's
queue (the dispatcher itself lives outside `src/`; only its spec-modelled
queue is tracked). -/
structure Store where
  storage : Storage
  dispatcherQueue : List Event
deriving DecidableEq

/-- `Store.prototype.commit(eventstream, callback)` (lines 279-327) against the
in-memory storage. `freshId` is the id obtained from `storage.getId`; `clock`
supplies the `new Date()` values. The events are sealed, handed to
`storage.addEvents`, enqueued on the dispatcher, moved from
`uncommittedEvents` onto `events`, and the callback runs. The returned list
records every invocation of the user callback: `if (err) callback(err);` has
no `return`, so an addEvents error produces an error invocation FOLLOWED by
the unconditional success invocation. (The in-memory `addEvents` never
errors.) -/
def Store.commit (st : Store) (s : EventStream) (freshId : String)
    (clock : Nat → Int) : Store × EventStream × List COut :=
  let sealed := sealEvents freshId clock (jsNum s.currentRevision) 0 s.uncommittedEvents
  let r := st.storage.addEvents (some sealed)
  let inner : List COut := match r.2 with
    | some e => [COut.err e]
    | none => []
  let s' : EventStream := { s with events := s.events ++ sealed, uncommittedEvents := [] }
  (⟨r.1, addUndispatchedEvents st.dispatcherQueue sealed⟩, s', inner ++ [COut.ok s'])

/-- `Store.prototype.commit` against an injected storage backend whose
`addEvents` synchronously reports `addErr` (the backend's own state is not
tracked). Only the coordinator-visible effects are returned: the dispatcher
queue, the mutated eventstream, and the list of user-callback invocations.
Because `if (err) callback(err);` lacks a `return`, an erroring backend still
gets its batch enqueued on the dispatcher, the stream still moves its
uncommitted events, and the callback fires a second time with success. -/
def commitWithBackend (queue : List Event) (s : EventStream) (freshId : String)
    (clock : Nat → Int) (addErr : Option Err) :
    List Event × EventStream × List COut :=
  let sealed := sealEvents freshId clock (jsNum s.currentRevision) 0 s.uncommittedEvents
  let inner : List COut := match addErr with
    | some e => [COut.err e]
    | none => []
  let s' : EventStream := { s with events := s.events ++ sealed, uncommittedEvents := [] }
  (addUndispatchedEvents queue sealed, s', inner ++ [COut.ok s'])

/-- `Store.prototype.getEventStream(streamId, revMin, revMax, callback)`: fetch
the events and wrap them in a fresh `EventStream` (whose `lastRevision` starts
at `-1` and `uncommittedEvents` empty). -/
def Store.getEventStream (st : Store) (streamId : String) (revMin revMax : Int) :
    EventStream :=
  { streamId := streamId
  , events := st.storage.getEvents streamId revMin revMax
  , uncommittedEvents := []
  , lastRevision := -1 }

/-- `Store.prototype.getFromSnapshot(streamId, maxRev, callback)`: get the
snapshot, then load the stream from `snap.revision + 1` (or from `0` when the
snapshot is the `{}` marker, whose `revision` is `undefined`). `none` when the
storage's `getSnapshot` never invokes its callback (so neither does this). -/
def Store.getFromSnapshot (st : Store) (streamId : String) (maxRev : Int) :
    Option (SnapResult × EventStream) :=
  match st.storage.getSnapshot streamId maxRev with
  | none => none
  | some sr =>
    let rev : Int := match sr with
      | SnapResult.found s => s.revision + 1
      | SnapResult.empty => 0
    some (sr, st.getEventStream streamId rev maxRev)

/-- `Store.prototype.createSnapshot(streamId, revision, data, callback)`:
assemble the snapshot with a fresh id from storage and persist it. -/
def Store.createSnapshot (st : Store) (streamId : String) (revision : Int)
    (data : Payload) (freshId : String) : Store :=
  { st with
    storage := (st.storage.addSnapshot
      { id := some freshId, streamId := streamId, revision := revision, data := data }).1 }

/-! ## Concrete states used by counterexamples and witnesses -/

/-- Two fresh uncommitted events on stream `"A"`, as produced by
`addEvent("p1"); addEvent("p2")` on a freshly loaded empty stream. -/
def demoStream : EventStream :=
  { streamId := "A"
  , events := []
  , uncommittedEvents := [Event.mkNew "A" "p1", Event.mkNew "A" "p2"]
  , lastRevision := -1 }

/-- A coordinator over an empty in-memory storage. -/
def emptyStore : Store :=
  { storage := { store := [], snapshots := [] }, dispatcherQueue := [] }

/-- A committed event of stream `"A"` at revision `r` (as the commit protocol
would have persisted it). -/
def evD (r : Int) : Event :=
  { streamId := some "A", streamRevision := some r, commitId := some "c"
  , commitSequence := some r, commitStamp := some 0, header := none
  , dispatched := true, payload := some "p" }

/-- A snapshot of stream `"A"` taken at revision 1. -/
def snap1 : Snapshot := { id := some "s1", streamId := "A", revision := 1, data := "x" }

/-- Stream `"A"` holds committed revisions 0..3 and a snapshot at revision 1. -/
def st4 : Store :=
  { storage := { store := [("A", [evD 0, evD 1, evD 2, evD 3])]
               , snapshots := [("A", [snap1])] }
  , dispatcherQueue := [] }

/-- A snapshot of stream `"A"` taken at revision 5. -/
def snap5 : Snapshot := { id := some "s5", streamId := "A", revision := 5, data := "d" }

/-- A storage whose only snapshot for stream `"A"` has revision 5. -/
def st5 : Storage := { store := [], snapshots := [("A", [snap5])] }

/-! ## Helper lemmas -/

theorem lookupKey_setKey_self {α : Type} (m : List (String × α)) (k : String) (v : α) :
    lookupKey (setKey m k v) k = some v := by
  induction m with
  | nil => simp [setKey, lookupKey]
  | cons p rest ih =>
    by_cases h : p.1 = k
    · simp [setKey, h, lookupKey]
    · simp [setKey, h, lookupKey, ih]

theorem lookupKey_setKey_ne {α : Type} (m : List (String × α)) (k k' : String) (v : α)
    (h : k' ≠ k) : lookupKey (setKey m k v) k' = lookupKey m k' := by
  have hne : ¬ k = k' := fun hh => h hh.symm
  induction m with
  | nil => simp [setKey, lookupKey, hne]
  | cons p rest ih =>
    obtain ⟨pk, pv⟩ := p
    by_cases hp : pk = k
    · subst hp
      simp [setKey, lookupKey, hne]
    · simp [setKey, hp, lookupKey, ih]

theorem sealEvents_length (id : String) (clock : Nat → Int) (startRev : Int) :
    ∀ (evs : List Event) (i : Nat), (sealEvents id clock startRev i evs).length = evs.length := by
  intro evs
  induction evs with
  | nil => intro i; rfl
  | cons e rest ih => intro i; simp [sealEvents, ih]

theorem sealEvents_getElem? (id : String) (clock : Nat → Int) (startRev : Int) :
    ∀ (evs : List Event) (i j : Nat),
      (sealEvents id clock startRev i evs)[j]? = (evs[j]?).map (fun e =>
        { e with commitId := some id
               , commitSequence := some ((i + j : Nat) : Int)
               , commitStamp := some (clock (i + j))
               , streamRevision := some (startRev + 1 + ((i + j : Nat) : Int)) }) := by
  intro evs
  induction evs with
  | nil => intro i j; simp [sealEvents]
  | cons e rest ih =>
    intro i j
    cases j with
    | zero => simp [sealEvents]
    | succ j' =>
      have h := ih (i + 1) j'
      simp only [sealEvents, List.getElem?_cons_succ, h]
      have : i + 1 + j' = i + (j' + 1) := by omega
      rw [this]

theorem commit_stream (st : Store) (s : EventStream) (cid : String) (clock : Nat → Int) :
    (Store.commit st s cid clock).2.1
      = { s with
          events := s.events ++ sealEvents cid clock (jsNum s.currentRevision) 0 s.uncommittedEvents
        , uncommittedEvents := [] } := rfl

/-! ## Claim C1 -/

/-- C1 counterexample: committing two events with the wall clock reading 0 at
the first `new Date()` call and 1 at the second gives the two events the
distinct commit stamps 0 and 1 (while the `commitId` is shared), so the events
of one commit do NOT always share one `commitStamp`. -/
theorem c1_shared_stamp_counterexample :
    ((Store.commit emptyStore demoStream "c0" (fun i => (i : Int))).2.1.events.map Event.commitStamp
        = [some 0, some 1])
    ∧ ((Store.commit emptyStore demoStream "c0" (fun i => (i : Int))).2.1.events.map Event.commitId
        = [some "c0", some "c0"])
    ∧ (some (0 : Int) ≠ some (1 : Int)) := by decide

/-- C1 (amended): for an EventStream with `n` uncommitted events (each still
carrying the `dispatched = false` set by the `Event` constructor), commit keeps
them in submission order at positions `|events|..|events|+n-1`, assigns them
`commitSequence = 0..n-1`, gives all of them the one fresh `commitId`, stamps
event `i` with the wall-clock value read at its own iteration (`clock i` — all
stamps coincide exactly when the clock does not advance during the loop), and
leaves `dispatched` false on each. -/
theorem c1_commit_batch_identity (st : Store) (s : EventStream) (cid : String)
    (clock : Nat → Int)
    (hdisp : ∀ e ∈ s.uncommittedEvents, e.dispatched = false) :
    ((Store.commit st s cid clock).2.1.events.length
        = s.events.length + s.uncommittedEvents.length)
    ∧ ((Store.commit st s cid clock).2.1.uncommittedEvents = [])
    ∧ (∀ i, i < s.uncommittedEvents.length →
        (((Store.commit st s cid clock).2.1.events[s.events.length + i]?).map
            (fun e => (e.commitId, e.commitSequence, e.commitStamp, e.dispatched)))
          = some (some cid, some (i : Int), some (clock i), false)) := by
  simp only [commit_stream]
  refine ⟨?_, by trivial, ?_⟩
  · simp [sealEvents_length]
  · intro i hi
    rw [List.getElem?_append_right (by omega)]
    simp only [Nat.add_sub_cancel_left]
    rw [sealEvents_getElem?]
    rw [List.getElem?_eq_getElem (by simpa using hi)]
    have hd := hdisp _ (s.uncommittedEvents.getElem_mem (by simpa using hi))
    simp [hd]

/-- Witness for C1: the amended theorem applied to the two-event demo commit. -/
theorem c1_commit_batch_identity_witness :
    (∀ e ∈ demoStream.uncommittedEvents, e.dispatched = false)
    ∧ (((Store.commit emptyStore demoStream "c0" (fun i => (i : Int))).2.1.events.length
          = demoStream.events.length + demoStream.uncommittedEvents.length)
       ∧ ((Store.commit emptyStore demoStream "c0" (fun i => (i : Int))).2.1.uncommittedEvents = [])
       ∧ (∀ i, i < demoStream.uncommittedEvents.length →
           (((Store.commit emptyStore demoStream "c0" (fun i => (i : Int))).2.1.events[demoStream.events.length + i]?).map
               (fun e => (e.commitId, e.commitSequence, e.commitStamp, e.dispatched)))
             = some (some "c0", some (i : Int), some (i : Int), false))) :=
  ⟨by decide,
   c1_commit_batch_identity emptyStore demoStream "c0" (fun i => (i : Int)) (by decide)⟩

/-! ## Claim C3 -/

/-- C3: commit against a storage whose `addEvents` reports an error is NOT
atomic and does NOT surface the error exactly once: the user callback fires
twice (first with the error, then with `(null, stream)`), the sealed batch is
still enqueued on the dispatcher, and the stream still moves its uncommitted
events onto `events`. (`if (err) callback(err);` inside `commitEvents` has no
`return`, so the step keeps running after reporting the error.) -/
theorem c3_commit_error_not_atomic :
    ((commitWithBackend [] demoStream "c0" (fun _ => 0) (some "storage down")).2.2
        = [COut.err "storage down",
           COut.ok (commitWithBackend [] demoStream "c0" (fun _ => 0) (some "storage down")).2.1])
    ∧ ((commitWithBackend [] demoStream "c0" (fun _ => 0) (some "storage down")).1 ≠ [])
    ∧ demoStream.uncommittedEvents ≠ []
    ∧ ((commitWithBackend [] demoStream "c0" (fun _ => 0) (some "storage down")).2.1.uncommittedEvents
        = [])
    ∧ ((commitWithBackend [] demoStream "c0" (fun _ => 0) (some "storage down")).2.1.events
        ≠ demoStream.events) := by decide

/-! ## Claim C5 -/

/-- C5: `getSnapshot` with a stream whose snapshots all have revision greater
than `maxRev` (here: one snapshot at revision 5, `maxRev = 0`) never invokes
its callback at all (`none`), instead of returning the empty marker the claim
(and the unknown-stream branch) promises. -/
theorem c5_getSnapshot_never_calls_back :
    Storage.getSnapshot st5 "A" 0 = none
    ∧ lookupKey st5.snapshots "A" = some [snap5] := by decide

/-! ## Claim C9 -/

/-- C9: `addEvents` with a missing or empty batch succeeds and leaves the
whole storage unchanged; a non-empty batch is appended, in order and in one
piece, to the log of the stream named by `events[0].streamId`, reports
success, and leaves the snapshot table and every other stream's log
unchanged. -/
theorem c9_addEvents_appends (st : Storage) (evs : List Event)
    (hshare : ∀ e ∈ evs, ∀ f ∈ evs, e.streamId = f.streamId) :
    (st.addEvents none = (st, none))
    ∧ (evs = [] → st.addEvents (some evs) = (st, none))
    ∧ (∀ e0 rest, evs = e0 :: rest →
        ((st.addEvents (some evs)).2 = none
         ∧ lookupKey (st.addEvents (some evs)).1.store (jsKey e0.streamId)
             = some (((lookupKey st.store (jsKey e0.streamId)).getD []) ++ evs)
         ∧ (st.addEvents (some evs)).1.snapshots = st.snapshots
         ∧ ∀ k, k ≠ jsKey e0.streamId →
             lookupKey (st.addEvents (some evs)).1.store k = lookupKey st.store k)) := by
  refine ⟨rfl, ?_, ?_⟩
  · rintro rfl; rfl
  · rintro e0 rest rfl
    refine ⟨rfl, ?_, rfl, ?_⟩
    · simp [Storage.addEvents, lookupKey_setKey_self]
    · intro k hk
      simp [Storage.addEvents, lookupKey_setKey_ne _ _ _ _ hk]

/-- Witness for C9: appending a shared-stream batch of two events to a
storage that already holds a log for stream `"A"`. -/
theorem c9_addEvents_appends_witness :
    (∀ e ∈ [evD 4, evD 5], ∀ f ∈ [evD 4, evD 5], e.streamId = f.streamId)
    ∧ ((st4.storage.addEvents none = (st4.storage, none))
       ∧ (([evD 4, evD 5] : List Event) = [] → st4.storage.addEvents (some [evD 4, evD 5]) = (st4.storage, none))
       ∧ (∀ e0 rest, ([evD 4, evD 5] : List Event) = e0 :: rest →
           ((st4.storage.addEvents (some [evD 4, evD 5])).2 = none
            ∧ lookupKey (st4.storage.addEvents (some [evD 4, evD 5])).1.store (jsKey e0.streamId)
                = some (((lookupKey st4.storage.store (jsKey e0.streamId)).getD []) ++ [evD 4, evD 5])
            ∧ (st4.storage.addEvents (some [evD 4, evD 5])).1.snapshots = st4.storage.snapshots
            ∧ ∀ k, k ≠ jsKey e0.streamId →
                lookupKey (st4.storage.addEvents (some [evD 4, evD 5])).1.store k
                  = lookupKey st4.storage.store k))) :=
  ⟨by decide, c9_addEvents_appends st4.storage [evD 4, evD 5] (by decide)⟩

/-! ## Claim C10 -/

/-- C10: `addEvents` performs no validation of a mixed batch: the entire
batch — including the events whose `streamId` differs from `events[0]`'s — is
appended under the stream named by `events[0].streamId`, success is reported,
and every other stream's log is untouched. -/
theorem c10_addEvents_no_validation (st : Storage) (e0 : Event) (rest : List Event)
    (_hmix : ∃ e ∈ rest, e.streamId ≠ e0.streamId) :
    ((st.addEvents (some (e0 :: rest))).2 = none)
    ∧ (lookupKey (st.addEvents (some (e0 :: rest))).1.store (jsKey e0.streamId)
        = some (((lookupKey st.store (jsKey e0.streamId)).getD []) ++ (e0 :: rest)))
    ∧ (∀ e ∈ rest,
        e ∈ ((lookupKey (st.addEvents (some (e0 :: rest))).1.store (jsKey e0.streamId)).getD []))
    ∧ (∀ k, k ≠ jsKey e0.streamId →
        lookupKey (st.addEvents (some (e0 :: rest))).1.store k = lookupKey st.store k) := by
  have h2 : lookupKey (st.addEvents (some (e0 :: rest))).1.store (jsKey e0.streamId)
      = some (((lookupKey st.store (jsKey e0.streamId)).getD []) ++ (e0 :: rest)) := by
    simp [Storage.addEvents, lookupKey_setKey_self]
  refine ⟨rfl, h2, ?_, ?_⟩
  · intro e he
    rw [h2]
    simp [he]
  · intro k hk
    simp [Storage.addEvents, lookupKey_setKey_ne _ _ _ _ hk]

/-- Witness for C10: a mixed batch headed by a stream-`"A"` event and
containing a stream-`"B"` event lands entirely under `"A"`. -/
theorem c10_addEvents_no_validation_witness :
    (∃ e ∈ [{ evD 9 with streamId := some "B" }], e.streamId ≠ (evD 8).streamId)
    ∧ (((st4.storage.addEvents (some ((evD 8) :: [{ evD 9 with streamId := some "B" }]))).2 = none)
       ∧ (lookupKey (st4.storage.addEvents (some ((evD 8) :: [{ evD 9 with streamId := some "B" }]))).1.store
             (jsKey (evD 8).streamId)
           = some (((lookupKey st4.storage.store (jsKey (evD 8).streamId)).getD [])
               ++ ((evD 8) :: [{ evD 9 with streamId := some "B" }])))
       ∧ (∀ e ∈ [{ evD 9 with streamId := some "B" }],
           e ∈ ((lookupKey (st4.storage.addEvents
                   (some ((evD 8) :: [{ evD 9 with streamId := some "B" }]))).1.store
                 (jsKey (evD 8).streamId)).getD []))
       ∧ (∀ k, k ≠ jsKey (evD 8).streamId →
           lookupKey (st4.storage.addEvents
               (some ((evD 8) :: [{ evD 9 with streamId := some "B" }]))).1.store k
             = lookupKey st4.storage.store k)) :=
  ⟨by decide,
   c10_addEvents_no_validation st4.storage (evD 8) [{ evD 9 with streamId := some "B" }] (by decide)⟩

/-! ## Claim C2 -/

/-- The maximum `streamRevision` (numerically coerced) over a list of events,
with the stream's initial sentinel `-1` as the starting point. -/
def maxRevision (evs : List Event) : Int :=
  evs.foldl (fun a e => max a (jsNum e.streamRevision)) (-1)

theorem currentRevision_foldl_max :
    ∀ (evs : List Event) (a : Int), (∀ e ∈ evs, (e.streamRevision).isSome) →
      jsNum (evs.foldl
          (fun rev e => if jsNum e.streamRevision > jsNum rev then e.streamRevision else rev)
          (some a))
        = evs.foldl (fun x e => max x (jsNum e.streamRevision)) a := by
  intro evs
  induction evs with
  | nil => intro a _; rfl
  | cons e rest ih =>
    intro a hsome
    obtain ⟨r, hr⟩ := Option.isSome_iff_exists.mp (hsome e (by simp))
    have ha : jsNum (some a) = a := rfl
    have hstep : (if jsNum e.streamRevision > jsNum (some a) then e.streamRevision else some a)
        = some (max a (jsNum e.streamRevision)) := by
      rcases le_or_lt (jsNum e.streamRevision) a with h | h
      · have hc : ¬ (jsNum e.streamRevision > jsNum (some a)) := by
          rw [ha]; exact not_lt.mpr h
        rw [if_neg hc, max_eq_left h]
      · have hc : jsNum e.streamRevision > jsNum (some a) := by
          rw [ha]; exact h
        rw [if_pos hc, max_eq_right h.le, hr]
        rfl
    simp only [List.foldl_cons, hstep]
    exact ih (max a (jsNum e.streamRevision)) (fun f hf => hsome f (by simp [hf]))

theorem currentRevision_eq_maxRevision (s : EventStream)
    (hlast : s.lastRevision = -1)
    (hsome : ∀ e ∈ s.events, (e.streamRevision).isSome) :
    jsNum s.currentRevision = maxRevision s.events := by
  unfold EventStream.currentRevision maxRevision
  rw [hlast]
  exact currentRevision_foldl_max s.events (-1) hsome

theorem foldl_max_le (evs : List Event) :
    ∀ (a : Int), a ≤ evs.foldl (fun x e => max x (jsNum e.streamRevision)) a
      ∧ ∀ e ∈ evs, jsNum e.streamRevision ≤ evs.foldl (fun x e => max x (jsNum e.streamRevision)) a := by
  induction evs with
  | nil => intro a; exact ⟨le_refl a, by simp⟩
  | cons e rest ih =>
    intro a
    obtain ⟨h1, h2⟩ := ih (max a (jsNum e.streamRevision))
    refine ⟨le_trans (le_max_left _ _) h1, ?_⟩
    intro f hf
    rcases List.mem_cons.mp hf with rfl | hf'
    · exact le_trans (le_max_right _ _) h1
    · exact h2 f hf'

theorem foldl_max_attained (evs : List Event) :
    ∀ (a : Int), evs.foldl (fun x e => max x (jsNum e.streamRevision)) a = a
      ∨ ∃ e ∈ evs, jsNum e.streamRevision
          = evs.foldl (fun x e => max x (jsNum e.streamRevision)) a := by
  induction evs with
  | nil => intro a; exact Or.inl rfl
  | cons e rest ih =>
    intro a
    rcases ih (max a (jsNum e.streamRevision)) with h | ⟨f, hf, hval⟩
    · rcases le_or_lt (jsNum e.streamRevision) a with hle | hlt
      · left
        simpa [max_eq_left hle] using h
      · right
        rw [max_eq_right hlt.le] at h
        exact ⟨e, by simp, by simp only [List.foldl_cons, max_eq_right hlt.le, h]⟩
    · right
      exact ⟨f, by simp [hf], by simpa using hval⟩

/-- C2: committed `streamRevision`s are consecutive. The event at batch
position `i` receives `streamRevision = maxRevision(events) + 1 + i`; in
particular the first event of the commit gets `max + 1` (which is `0` when the
stream was loaded empty, since the sentinel is `-1`), and each successive
event of the batch is one above its predecessor. The remaining conjuncts state
that `maxRevision` really is the maximum `streamRevision` of the loaded
committed events: it bounds them all, is `-1` on an empty stream, and is
attained on a non-empty one. -/
theorem c2_commit_revisions (st : Store) (s : EventStream) (cid : String)
    (clock : Nat → Int)
    (hlast : s.lastRevision = -1)
    (hrev : ∀ e ∈ s.events, ∃ r : Int, e.streamRevision = some r ∧ 0 ≤ r) :
    (∀ i, i < s.uncommittedEvents.length →
        (((Store.commit st s cid clock).2.1.events[s.events.length + i]?).bind Event.streamRevision
          = some (maxRevision s.events + 1 + (i : Int))))
    ∧ (∀ e ∈ s.events, jsNum e.streamRevision ≤ maxRevision s.events)
    ∧ (s.events = [] → maxRevision s.events = -1)
    ∧ (s.events ≠ [] → ∃ e ∈ s.events, e.streamRevision = some (maxRevision s.events)) := by
  have hsome : ∀ e ∈ s.events, (e.streamRevision).isSome := by
    intro e he
    obtain ⟨r, hr, _⟩ := hrev e he
    simp [hr]
  have hcur : jsNum s.currentRevision = maxRevision s.events :=
    currentRevision_eq_maxRevision s hlast hsome
  refine ⟨?_, (foldl_max_le s.events (-1)).2, fun h => by simp [maxRevision, h], ?_⟩
  · intro i hi
    simp only [commit_stream]
    rw [List.getElem?_append_right (by omega)]
    simp only [Nat.add_sub_cancel_left]
    rw [sealEvents_getElem?]
    rw [List.getElem?_eq_getElem (by simpa using hi)]
    simp only [Option.map_some', Option.some_bind, hcur]
    rw [Nat.zero_add]
  · intro hne
    rcases foldl_max_attained s.events (-1) with h | ⟨e, he, hval⟩
    · exfalso
      obtain ⟨e, he⟩ := List.exists_mem_of_ne_nil s.events hne
      obtain ⟨r, hr, hr0⟩ := hrev e he
      have hle := (foldl_max_le s.events (-1)).2 e he
      rw [h, hr] at hle
      have hler : r ≤ -1 := hle
      omega
    · refine ⟨e, he, ?_⟩
      obtain ⟨r, hr, _⟩ := hrev e he
      have hval' : r = maxRevision s.events := by
        rw [hr] at hval
        exact hval
      rw [hr, hval']

/-- Witness for C2: a stream loaded with one committed event at revision 0
commits two further events, which receive revisions 1 and 2. -/
theorem c2_commit_revisions_witness :
    ((({ streamId := "A", events := [evD 0]
       , uncommittedEvents := [Event.mkNew "A" "p2", Event.mkNew "A" "p3"]
       , lastRevision := -1 } : EventStream).lastRevision = -1)
     ∧ (∀ e ∈ ({ streamId := "A", events := [evD 0]
               , uncommittedEvents := [Event.mkNew "A" "p2", Event.mkNew "A" "p3"]
               , lastRevision := -1 } : EventStream).events,
          ∃ r : Int, e.streamRevision = some r ∧ 0 ≤ r))
    ∧ ((∀ i, i < ({ streamId := "A", events := [evD 0]
                  , uncommittedEvents := [Event.mkNew "A" "p2", Event.mkNew "A" "p3"]
                  , lastRevision := -1 } : EventStream).uncommittedEvents.length →
          (((Store.commit emptyStore
                { streamId := "A", events := [evD 0]
                , uncommittedEvents := [Event.mkNew "A" "p2", Event.mkNew "A" "p3"]
                , lastRevision := -1 } "c1" (fun _ => 7)).2.1.events[([evD 0] : List Event).length + i]?).bind
              Event.streamRevision
            = some (maxRevision [evD 0] + 1 + (i : Int))))
       ∧ (∀ e ∈ ([evD 0] : List Event), jsNum e.streamRevision ≤ maxRevision [evD 0])
       ∧ (([evD 0] : List Event) = [] → maxRevision [evD 0] = -1)
       ∧ (([evD 0] : List Event) ≠ [] →
            ∃ e ∈ ([evD 0] : List Event), e.streamRevision = some (maxRevision [evD 0]))) :=
  ⟨⟨rfl, by intro e he; simp at he; subst he; exact ⟨0, rfl, by omega⟩⟩,
   c2_commit_revisions emptyStore
     { streamId := "A", events := [evD 0]
     , uncommittedEvents := [Event.mkNew "A" "p2", Event.mkNew "A" "p3"]
     , lastRevision := -1 } "c1" (fun _ => 7) rfl
     (by intro e he; simp at he; subst he; exact ⟨0, rfl, by omega⟩)⟩

/-! ## Claim C7 -/

/-- C7 counterexample: at the JS-falsy streamId `""` the round-trip fails.
The Event constructor's `streamId || null` collapses the id to `null`, so
`addEvents` files the committed batch under the property key `"null"`, while
the reload `getEventStream("", 0, -1)` reads the key `""` and finds nothing:
no event with the committed payload is returned. -/
theorem c7_empty_streamId_counterexample :
    ((Store.getEventStream
        (Store.commit emptyStore
            ((Store.getEventStream emptyStore "" 0 (-1)).addEvent "p1") "c1"
            (fun _ => 0)).1
        "" 0 (-1)).events = [])
    ∧ ((lookupKey (Store.commit emptyStore
            ((Store.getEventStream emptyStore "" 0 (-1)).addEvent "p1") "c1"
            (fun _ => 0)).1.storage.store "null").map (List.map Event.payload)
        = some [some "p1"]) := by decide

/-- C7 (amended): round-trip for a non-empty streamId. Load a stream for
`streamId` (any revision window), add a
payload `p`, commit, and reload the full stream with
`getEventStream(streamId, 0, -1)`: the loaded stream contains an event whose
`payload` is `p`. (The one JS proviso: `streamId` must be a truthy string,
since the `Event` constructor collapses a falsy `streamId` to `null`.) -/
theorem c7_roundtrip (st : Store) (sid : String) (p : Payload) (cid : String)
    (clock : Nat → Int) (minR maxR : Int) (hsid : sid ≠ "") :
    ∃ e, e ∈ (Store.getEventStream
        (Store.commit st ((Store.getEventStream st sid minR maxR).addEvent p) cid clock).1
        sid 0 (-1)).events
      ∧ e.payload = some p := by
  have huncommitted : ((Store.getEventStream st sid minR maxR).addEvent p).uncommittedEvents
      = [Event.mkNew sid p] := by
    simp [Store.getEventStream, EventStream.addEvent]
  have hcommitStore : (Store.commit st ((Store.getEventStream st sid minR maxR).addEvent p) cid clock).1
      = ⟨(st.storage.addEvents (some (sealEvents cid clock
            (jsNum ((Store.getEventStream st sid minR maxR).addEvent p).currentRevision) 0
            ((Store.getEventStream st sid minR maxR).addEvent p).uncommittedEvents))).1,
         addUndispatchedEvents st.dispatcherQueue (sealEvents cid clock
            (jsNum ((Store.getEventStream st sid minR maxR).addEvent p).currentRevision) 0
            ((Store.getEventStream st sid minR maxR).addEvent p).uncommittedEvents)⟩ := rfl
  rw [hcommitStore, huncommitted]
  simp only [sealEvents]
  have hmkid : (Event.mkNew sid p).streamId = some sid := by
    simp [Event.mkNew, jsOrNull, hsid]
  simp [Store.getEventStream, Storage.addEvents, hmkid, jsKey, Storage.getEvents,
    lookupKey_setKey_self, jsSliceFrom, jsSliceIdx]
  exact ⟨_, Or.inr rfl, rfl⟩

/-- Witness for C7: the round-trip on stream `"A"` with payload `"p1"` over an
empty store. -/
theorem c7_roundtrip_witness :
    ("A" : String) ≠ ""
    ∧ (∃ e, e ∈ (Store.getEventStream
          (Store.commit emptyStore
              ((Store.getEventStream emptyStore "A" 0 (-1)).addEvent "p1") "c1"
              (fun _ => 0)).1
          "A" 0 (-1)).events
        ∧ e.payload = some "p1") :=
  ⟨by decide, c7_roundtrip emptyStore "A" "p1" "c1" (fun _ => 0) 0 (-1) (by decide)⟩

/-! ## Claim C6 -/

/-- The full positional characterization of `Storage.getEvents`, shared by the
theorems about `getEvents` and `getFromSnapshot`. -/
theorem getEvents_spec (st : Storage) (sid : String) (minRev maxRev : Int)
    (hmin : 0 ≤ minRev) (hmax : maxRev = -1 ∨ 0 ≤ maxRev) :
    ((st.getEvents sid minRev maxRev).length
        = (if maxRev = -1 then ((lookupKey st.store sid).getD []).length
           else min maxRev.toNat ((lookupKey st.store sid).getD []).length)
          - min minRev.toNat ((lookupKey st.store sid).getD []).length)
    ∧ (∀ j, j < (st.getEvents sid minRev maxRev).length →
        (st.getEvents sid minRev maxRev)[j]?
          = ((lookupKey st.store sid).getD [])[minRev.toNat + j]?)
    ∧ (lookupKey st.store sid = none → st.getEvents sid minRev maxRev = []) := by
  cases hlk : lookupKey st.store sid with
  | none => simp [Storage.getEvents, hlk]
  | some log =>
    have hb : jsSliceIdx log.length minRev = min minRev.toNat log.length := by
      simp [jsSliceIdx, not_lt.mpr hmin]
    rcases hmax with hm1 | hm0
    · subst hm1
      have hres : st.getEvents sid minRev (-1) = log.drop (min minRev.toNat log.length) := by
        simp [Storage.getEvents, hlk, jsSliceFrom, hb]
      rw [hres]
      refine ⟨by simp, ?_, by intro h; exact absurd h (by simp [hlk])⟩
      intro j hj
      rw [List.getElem?_drop]
      simp only [List.length_drop] at hj
      have harith : min minRev.toNat log.length + j = minRev.toNat + j := by omega
      rw [harith]
      simp [hlk]
    · have hne : ¬ (maxRev = -1) := by omega
      have he : jsSliceIdx log.length maxRev = min maxRev.toNat log.length := by
        simp [jsSliceIdx, not_lt.mpr hm0]
      have hres : st.getEvents sid minRev maxRev
          = (log.take (min maxRev.toNat log.length)).drop (min minRev.toNat log.length) := by
        simp [Storage.getEvents, hlk, hne, jsSlice, hb, he]
      rw [hres]
      refine ⟨?_, ?_, by intro h; exact absurd h (by simp [hlk])⟩
      · simp [hne, hlk]
      · intro j hj
        simp only [List.length_drop, List.length_take] at hj
        rw [List.getElem?_drop]
        rw [List.getElem?_take_of_lt (by omega)]
        have harith : min minRev.toNat log.length + j = minRev.toNat + j := by omega
        rw [harith]
        simp [hlk]

/-- C6: `getEvents(streamId, minRev, maxRev)` is zero-based positional
slicing of the stream's log: the result holds, in log order, the events at
positions `minRev + 0, minRev + 1, ...`; its length is
`min(maxRev, len) - min(minRev, len)` (so exactly the existing positions `i`
with `minRev ≤ i < maxRev`); `maxRev = -1` reaches to the end of the log; and
an unknown stream yields the empty list. -/
theorem c6_getEvents_positional (st : Storage) (sid : String) (minRev maxRev : Int)
    (hmin : 0 ≤ minRev) (hmax : maxRev = -1 ∨ 0 ≤ maxRev) :
    ((st.getEvents sid minRev maxRev).length
        = (if maxRev = -1 then ((lookupKey st.store sid).getD []).length
           else min maxRev.toNat ((lookupKey st.store sid).getD []).length)
          - min minRev.toNat ((lookupKey st.store sid).getD []).length)
    ∧ (∀ j, j < (st.getEvents sid minRev maxRev).length →
        (st.getEvents sid minRev maxRev)[j]?
          = ((lookupKey st.store sid).getD [])[minRev.toNat + j]?)
    ∧ (lookupKey st.store sid = none → st.getEvents sid minRev maxRev = []) :=
  getEvents_spec st sid minRev maxRev hmin hmax

/-- Witness for C6: slicing positions 1 and 2 out of the four stored events of
stream `"A"`. -/
theorem c6_getEvents_positional_witness :
    ((0 : Int) ≤ 1 ∧ ((3 : Int) = -1 ∨ (0 : Int) ≤ 3))
    ∧ (((st4.storage.getEvents "A" 1 3).length
          = (if (3 : Int) = -1 then ((lookupKey st4.storage.store "A").getD []).length
             else min (3 : Int).toNat ((lookupKey st4.storage.store "A").getD []).length)
            - min (1 : Int).toNat ((lookupKey st4.storage.store "A").getD []).length)
       ∧ (∀ j, j < (st4.storage.getEvents "A" 1 3).length →
            (st4.storage.getEvents "A" 1 3)[j]?
              = ((lookupKey st4.storage.store "A").getD [])[(1 : Int).toNat + j]?)
       ∧ (lookupKey st4.storage.store "A" = none → st4.storage.getEvents "A" 1 3 = [])) :=
  ⟨⟨by decide, Or.inr (by decide)⟩,
   c6_getEvents_positional st4.storage "A" 1 3 (by decide) (Or.inr (by decide))⟩


/-! ## Claim C4 -/

/-- The EventStream that `getFromSnapshot("A", 3)` produces on `st4`. -/
def esA : EventStream :=
  { streamId := "A", events := [evD 2], uncommittedEvents := [], lastRevision := -1 }

/-- C4 counterexample: on a stream with committed revisions 0..3 and a
snapshot at revision 1, `getFromSnapshot("A", 3)` returns the snapshot and a
stream holding ONLY revision 2 — although revision 3 exists and lies in the
claimed interval `(snap.revision, maxRev] = (1, 3]`. `maxRev` is exclusive,
so the stream does not cover `(snap.revision, maxRev]`. -/
theorem c4_maxRev_exclusive_counterexample :
    ((Store.getFromSnapshot st4 "A" 3).map
          (fun pr => (pr.1, pr.2.events.map Event.streamRevision))
        = some (SnapResult.found snap1, [some 2]))
    ∧ (((lookupKey st4.storage.store "A").getD []).map Event.streamRevision
        = [some 0, some 1, some 2, some 3]) := by decide

/-- C4 (amended): whenever `getFromSnapshot(streamId, maxRev)` (with
`maxRev ≥ 0`) actually calls back a pair `(snap, stream)`, the event load
starts at `snapshot.revision + 1` (or at 0 when the returned snapshot is the
empty marker, which lacks a `revision` field); and when the snapshot was
found (with `revision ≥ 0`) on a log whose positions carry streamRevisions
`0, 1, 2, ...`, the stream covers exactly the revisions in
`(snap.revision, maxRev)` — `maxRev` EXCLUSIVE — that exist in the log:
event `j` of the stream has `streamRevision = snap.revision + 1 + j`, the
stream's length is `min(maxRev, len) - min(snap.revision + 1, len)`, and when
the stream is non-empty its first revision is `snap.revision + 1`, strictly
above `snap.revision`. -/
theorem c4_getFromSnapshot_window (st : Store) (sid : String) (maxRev : Int)
    (sr : SnapResult) (es : EventStream)
    (hres : st.getFromSnapshot sid maxRev = some (sr, es))
    (hmax : 0 ≤ maxRev)
    (hdense : ∀ k, k < ((lookupKey st.storage.store sid).getD []).length →
        ((((lookupKey st.storage.store sid).getD [])[k]?).bind Event.streamRevision
          = some (k : Int))) :
    (es.events = st.storage.getEvents sid
        (match sr with
         | SnapResult.found s => s.revision + 1
         | SnapResult.empty => 0) maxRev)
    ∧ (∀ snap, sr = SnapResult.found snap → 0 ≤ snap.revision →
        (es.events.length
            = min maxRev.toNat ((lookupKey st.storage.store sid).getD []).length
              - min (snap.revision + 1).toNat ((lookupKey st.storage.store sid).getD []).length)
        ∧ (∀ j, j < es.events.length →
            ((es.events[j]?).bind Event.streamRevision = some (snap.revision + 1 + (j : Int))))
        ∧ (es.events ≠ [] →
            ((es.events[0]?).bind Event.streamRevision = some (snap.revision + 1))
            ∧ snap.revision < snap.revision + 1)) := by
  unfold Store.getFromSnapshot at hres
  cases hsr : st.storage.getSnapshot sid maxRev with
  | none => rw [hsr] at hres; exact Option.noConfusion hres
  | some sr0 =>
    rw [hsr] at hres
    cases sr0 with
    | empty =>
      have hpair := Option.some.inj hres
      have h1 : sr = SnapResult.empty := (congrArg Prod.fst hpair).symm
      have h2 : es = Store.getEventStream st sid 0 maxRev := (congrArg Prod.snd hpair).symm
      subst h1
      subst h2
      exact ⟨rfl, fun snap hsnapeq => SnapResult.noConfusion hsnapeq⟩
    | found s0 =>
      have hpair := Option.some.inj hres
      have h1 : sr = SnapResult.found s0 := (congrArg Prod.fst hpair).symm
      have h2 : es = Store.getEventStream st sid (s0.revision + 1) maxRev :=
        (congrArg Prod.snd hpair).symm
      subst h1
      subst h2
      refine ⟨rfl, ?_⟩
      intro snap hsnapeq hsnap0
      have hss : s0 = snap := by injection hsnapeq
      subst hss
      have hne : ¬ (maxRev = -1) := by omega
      obtain ⟨hlen, hget, hunk⟩ := getEvents_spec st.storage sid (s0.revision + 1) maxRev
        (by omega) (Or.inr hmax)
      have hlen' : (Store.getEventStream st sid (s0.revision + 1) maxRev).events.length
          = min maxRev.toNat ((lookupKey st.storage.store sid).getD []).length
            - min (s0.revision + 1).toNat ((lookupKey st.storage.store sid).getD []).length := by
        rw [show (Store.getEventStream st sid (s0.revision + 1) maxRev).events
              = st.storage.getEvents sid (s0.revision + 1) maxRev from rfl]
        rw [hlen, if_neg hne]
      have hgetj : ∀ j, j < (Store.getEventStream st sid (s0.revision + 1) maxRev).events.length →
          (((Store.getEventStream st sid (s0.revision + 1) maxRev).events[j]?).bind Event.streamRevision
            = some (s0.revision + 1 + (j : Int))) := by
        intro j hj
        have hj' := hj
        rw [hlen'] at hj'
        rw [show (Store.getEventStream st sid (s0.revision + 1) maxRev).events
              = st.storage.getEvents sid (s0.revision + 1) maxRev from rfl]
        rw [hget j hj]
        rw [hdense ((s0.revision + 1).toNat + j) (by omega)]
        congr 1
        omega
      refine ⟨hlen', hgetj, ?_⟩
      intro hnonempty
      have h0 : 0 < (Store.getEventStream st sid (s0.revision + 1) maxRev).events.length :=
        List.length_pos.mpr hnonempty
      refine ⟨?_, by omega⟩
      have := hgetj 0 h0
      simpa using this

/-- Witness for C4: the amended theorem evaluated on `st4` with `maxRev = 3`,
where the returned stream is exactly `esA` (the single revision-2 event). -/
theorem c4_getFromSnapshot_window_witness :
    (Store.getFromSnapshot st4 "A" 3 = some (SnapResult.found snap1, esA)
     ∧ (0 : Int) ≤ 3
     ∧ (∀ k, k < ((lookupKey st4.storage.store "A").getD []).length →
          ((((lookupKey st4.storage.store "A").getD [])[k]?).bind Event.streamRevision
            = some (k : Int))))
    ∧ ((esA.events = st4.storage.getEvents "A"
          (match SnapResult.found snap1 with
           | SnapResult.found s => s.revision + 1
           | SnapResult.empty => 0) 3)
       ∧ (∀ snap, SnapResult.found snap1 = SnapResult.found snap → 0 ≤ snap.revision →
           (esA.events.length
               = min (3 : Int).toNat ((lookupKey st4.storage.store "A").getD []).length
                 - min (snap.revision + 1).toNat ((lookupKey st4.storage.store "A").getD []).length)
           ∧ (∀ j, j < esA.events.length →
               ((esA.events[j]?).bind Event.streamRevision = some (snap.revision + 1 + (j : Int))))
           ∧ (esA.events ≠ [] →
               ((esA.events[0]?).bind Event.streamRevision = some (snap.revision + 1))
               ∧ snap.revision < snap.revision + 1))) :=
  ⟨⟨by decide, by decide, by decide⟩,
   c4_getFromSnapshot_window st4 "A" 3 (SnapResult.found snap1) esA
     (by decide) (by decide) (by decide)⟩


/-! ## Claim C8 -/

/-- The per-stream filtered view underlying `getUndispatchedEvents`. -/
def undisp (m : List (String × List Event)) : List Event :=
  (m.map (fun p => p.2.filter (fun e => e.dispatched == false))).flatten

theorem undisp_cons (k : String) (l : List Event) (rest : List (String × List Event)) :
    undisp ((k, l) :: rest)
      = l.filter (fun e => e.dispatched == false) ++ undisp rest := by
  simp [undisp]

theorem foldl_append_eq_flatten {α β : Type} (f : α → List β) :
    ∀ (l : List α) (acc : List β),
      l.foldl (fun a x => a ++ f x) acc = acc ++ (l.map f).flatten := by
  intro l
  induction l with
  | nil => intro acc; simp
  | cons x xs ih => intro acc; simp [ih]

theorem getUndispatchedEvents_eq_undisp (st : Storage) :
    st.getUndispatchedEvents = undisp st.store := by
  unfold Storage.getUndispatchedEvents undisp
  rw [foldl_append_eq_flatten]
  simp

theorem filter_split_at (l : List Event) (i : Nat) (e0 : Event)
    (hg : l[i]? = some e0) (hd : e0.dispatched = false) :
    (l.filter (fun e => e.dispatched == false)
        = (l.take i).filter (fun e => e.dispatched == false)
          ++ e0 :: (l.drop (i + 1)).filter (fun e => e.dispatched == false))
    ∧ ((setDispatchedAt l i).filter (fun e => e.dispatched == false)
        = (l.take i).filter (fun e => e.dispatched == false)
          ++ (l.drop (i + 1)).filter (fun e => e.dispatched == false)) := by
  have hlt : i < l.length := by
    by_contra hcon
    rw [List.getElem?_eq_none (by omega)] at hg
    exact Option.noConfusion hg
  have hgeq : l[i] = e0 := by
    have := List.getElem?_eq_getElem hlt
    rw [hg] at this
    exact (Option.some.inj this).symm
  have hdrop : l.drop i = e0 :: l.drop (i + 1) := by
    rw [List.drop_eq_getElem_cons hlt, hgeq]
  constructor
  · conv_lhs => rw [← List.take_append_drop i l, hdrop]
    rw [List.filter_append, List.filter_cons]
    simp [hd]
  · unfold setDispatchedAt
    rw [hg]
    rw [List.filter_append, List.filter_cons]
    simp [hd]

theorem map_setdisp_of_not_mem (sid : String) (i : Nat) :
    ∀ (m : List (String × List Event)), sid ∉ m.map Prod.fst →
      m.map (fun p => if p.1 = sid then (p.1, setDispatchedAt p.2 i) else p) = m := by
  intro m
  induction m with
  | nil => intro _; rfl
  | cons p rest ih =>
    intro h
    simp only [List.map_cons, List.mem_cons, not_or] at h
    obtain ⟨h1, h2⟩ := h
    simp only [List.map_cons]
    rw [if_neg (fun hh => h1 hh.symm), ih h2]

theorem undisp_setDispatched :
    ∀ (m : List (String × List Event)) (sid : String) (i : Nat) (e0 : Event),
      (m.map Prod.fst).Nodup →
      (lookupKey m sid).bind (fun l => l[i]?) = some e0 →
      e0.dispatched = false →
      ∃ pre post, undisp m = pre ++ e0 :: post
        ∧ undisp (m.map (fun p => if p.1 = sid then (p.1, setDispatchedAt p.2 i) else p))
            = pre ++ post := by
  intro m
  induction m with
  | nil => intro sid i e0 _ he _; exact Option.noConfusion he
  | cons p rest ih =>
    intro sid i e0 hnodup he hd
    obtain ⟨k, l⟩ := p
    by_cases hk : k = sid
    · subst hk
      have he' : l[i]? = some e0 := by simpa [lookupKey] using he
      have hnotmem : k ∉ rest.map Prod.fst := by
        rw [List.map_cons, List.nodup_cons] at hnodup
        exact hnodup.1
      obtain ⟨hfl, hfl2⟩ := filter_split_at l i e0 he' hd
      refine ⟨(l.take i).filter (fun e => e.dispatched == false),
              ((l.drop (i + 1)).filter (fun e => e.dispatched == false)) ++ undisp rest,
              ?_, ?_⟩
      · rw [undisp_cons, hfl]
        simp
      · simp only [List.map_cons, eq_self_iff_true, if_true]
        rw [map_setdisp_of_not_mem k i rest hnotmem]
        rw [undisp_cons, hfl2]
        simp
    · have he' : (lookupKey rest sid).bind (fun l => l[i]?) = some e0 := by
        simpa [lookupKey, hk] using he
      have hnodup' : (rest.map Prod.fst).Nodup := by
        rw [List.map_cons, List.nodup_cons] at hnodup
        exact hnodup.2
      obtain ⟨pre, post, hpre, hpost⟩ := ih sid i e0 hnodup' he' hd
      refine ⟨(l.filter (fun e => e.dispatched == false)) ++ pre, post, ?_, ?_⟩
      · rw [undisp_cons, hpre]
        simp
      · simp only [List.map_cons, if_neg hk]
        rw [undisp_cons, hpost]
        simp

/-- C8: `setEventToDispatched` on the event stored at position `i` of stream
`sid` (an event whose `dispatched` flag was still false) removes exactly that
event's occurrence from every subsequent `getUndispatchedEvents()` result:
the new list is the old one with that single occurrence deleted, so the
dispatched event is no longer included while every other still-undispatched
event remains, in order. (JS object keys are unique, hence the `Nodup`
hypothesis on the store's keys.) -/
theorem c8_setEventToDispatched_excludes (st : Storage) (sid : String) (i : Nat) (e0 : Event)
    (huniq : (st.store.map Prod.fst).Nodup)
    (he : (lookupKey st.store sid).bind (fun l => l[i]?) = some e0)
    (hd : e0.dispatched = false) :
    ∃ pre post,
      st.getUndispatchedEvents = pre ++ e0 :: post
      ∧ (st.setEventToDispatched sid i).getUndispatchedEvents = pre ++ post := by
  obtain ⟨pre, post, h1, h2⟩ := undisp_setDispatched st.store sid i e0 huniq he hd
  refine ⟨pre, post, ?_, ?_⟩
  · rw [getUndispatchedEvents_eq_undisp, h1]
  · rw [getUndispatchedEvents_eq_undisp]
    exact h2

/-- An undispatched event of stream `"A"`. -/
def u0 : Event :=
  { streamId := some "A", streamRevision := some 0, commitId := some "c"
  , commitSequence := some 0, commitStamp := some 0, header := none
  , dispatched := false, payload := some "a0" }

/-- An already-dispatched event of stream `"A"`. -/
def u1 : Event := { u0 with payload := some "a1", dispatched := true }

/-- An undispatched event of stream `"B"`. -/
def u2 : Event := { u0 with streamId := some "B", payload := some "b0" }

/-- Two streams with a mix of dispatched and undispatched events. -/
def st8 : Storage := { store := [("A", [u0, u1]), ("B", [u2])], snapshots := [] }

/-- Witness for C8: dispatching the stream-`"A"` event at position 0 of `st8`
removes it from the undispatched scan while the stream-`"B"` event stays. -/
theorem c8_setEventToDispatched_excludes_witness :
    ((st8.store.map Prod.fst).Nodup
     ∧ (lookupKey st8.store "A").bind (fun l => l[0]?) = some u0
     ∧ u0.dispatched = false)
    ∧ (∃ pre post,
        st8.getUndispatchedEvents = pre ++ u0 :: post
        ∧ (st8.setEventToDispatched "A" 0).getUndispatchedEvents = pre ++ post) :=
  ⟨⟨by decide, by decide, by decide⟩,
   c8_setEventToDispatched_excludes st8 "A" 0 u0 (by decide) (by decide) (by decide)⟩

end NodeEventStore
